import Mathlib

/-!
Verification of the attendance event engine of the factory-attendance
repository.  The development shallowly embeds the persistence logic of
`src/core/database_manager.py` (`record_staff_attendance`), the debounce and
unknown-person deduplication logic of `web_app.py` (`process_attendance`,
`is_same_unknown`, `process_unknown_entry`), and the per-track staff capture
state machine and unknown-entry classifier of
`src/ui/attendance_dashboard.py` (`process_video`, `process_unknown_entries`,
`record_checkin`).

Modelling conventions: wall-clock times of day are whole seconds since
midnight (`ℕ`); dates are abstract day numbers (`ℕ`); monotonic timestamps
(`time.time()`) are rationals; confidences and derived hours are rationals.
-/

namespace FactoryAttendance

/-- A row of the `staff_attendance` table
(`database_manager.py`, `init_database`, lines 111–125).  The table carries a
`UNIQUE(staff_id, date)` constraint; `hours_worked` defaults to `0` and
`status` defaults to `'Present'`. -/
structure AttRow where
  staff_id : String
  date : ℕ
  check_in_time : Option ℕ
  check_out_time : Option ℕ
  hours_worked : ℚ
  status : String
  recognition_confidence : ℚ
deriving DecidableEq

/-- A row of the append-only `staff_checkins` event table
(`database_manager.py`, `init_database`, lines 128–141). -/
structure CheckinRow where
  staff_id : String
  date : ℕ
  check_time : ℕ
  status : String
  late_minutes : ℕ
  recognition_confidence : ℚ
deriving DecidableEq

/-- The persistent state touched by `record_staff_attendance`. -/
structure DB where
  staff_attendance : List AttRow
  staff_checkins : List CheckinRow
deriving DecidableEq

/-- The database right after `init_database`: both tables empty. -/
def emptyDB : DB := ⟨[], []⟩

/-- The dictionary returned by `record_staff_attendance`. -/
structure AttendResult where
  success : Bool
  already_checked_in : Bool
  total_visits : ℕ
deriving DecidableEq

/-- `09:00:00` in seconds since midnight (`expected_time` in the source). -/
def expectedSecs : ℕ := 32400

/-- `09:20:00` in seconds since midnight (`late_window_end` in the source). -/
def lateWindowEndSecs : ℕ := 33600

/-- Status computed on a fresh check-in insert and on every check-in event:
`'Late' if (expected_time < current_time <= late_window_end) else 'Present'`
(`database_manager.py` lines 683–702). -/
def checkinStatus (t : ℕ) : String :=
  if expectedSecs < t ∧ t ≤ lateWindowEndSecs then "Late" else "Present"

/-- Late minutes persisted in the `staff_checkins` event:
`max(0, int(elapsed_seconds // 60))` inside the grace window, else `0`
(`database_manager.py` lines 694–702).  Inside the window the elapsed
seconds are non-negative, so `max` never bites and the value is the floor
of elapsed minutes. -/
def checkinLateMinutes (t : ℕ) : ℕ :=
  if expectedSecs < t ∧ t ≤ lateWindowEndSecs then (t - expectedSecs) / 60 else 0

/-- The `WHERE staff_id = ? AND date = ?` predicate used by both the
check-in existence query and the check-out `UPDATE`. -/
def attKeyMatch (sid : String) (d : ℕ) (r : AttRow) : Bool :=
  r.staff_id == sid && r.date == d

/-- `(julianday(date || ' ' || t_out) - julianday(date || ' ' || t_in)) * 24`:
the wall-clock difference between two same-day times, in hours. -/
def hoursBetween (tin tout : ℕ) : ℚ := ((tout : ℚ) - (tin : ℚ)) / 3600

/-- `SELECT COUNT(*) FROM staff_attendance WHERE staff_id = ?`
(the `total_visits` query). -/
def visitCount (rows : List AttRow) (sid : String) : ℕ :=
  rows.countP (fun r => r.staff_id == sid)

/-- The per-row effect of the check-in `UPDATE`
(`database_manager.py` lines 676–680): on a key match it sets only
`check_in_time` and `recognition_confidence`, leaving `status`,
`check_out_time` and `hours_worked` untouched. -/
def updCheckin (sid : String) (d t : ℕ) (conf : ℚ) (r : AttRow) : AttRow :=
  if attKeyMatch sid d r then
    { r with check_in_time := some t, recognition_confidence := conf }
  else r

/-- The per-row effect of the check-out `UPDATE`
(`database_manager.py` lines 711–720): on a key match it sets
`check_out_time` and recomputes `hours_worked` from the row's own
`check_in_time` (`CASE WHEN check_in_time IS NOT NULL`), defaulting to 0. -/
def updCheckout (sid : String) (d t : ℕ) (r : AttRow) : AttRow :=
  if attKeyMatch sid d r then
    { r with check_out_time := some t,
             hours_worked :=
               match r.check_in_time with
               | some tin => hoursBetween tin t
               | none => 0 }
  else r

/-- The row inserted by a first check-in of the day
(`database_manager.py` lines 687–690); `check_out_time` and `hours_worked`
take their column defaults. -/
def freshCheckinRow (sid : String) (d t : ℕ) (conf : ℚ) : AttRow :=
  ⟨sid, d, some t, none, 0, checkinStatus t, conf⟩

/-- The minimal row inserted when a check-out finds no row for today
(`database_manager.py` lines 724–727). -/
def minimalCheckoutRow (sid : String) (d t : ℕ) (conf : ℚ) : AttRow :=
  ⟨sid, d, none, some t, 0, "Present", conf⟩

/-- The event row appended to `staff_checkins` on every check-in
(`database_manager.py` lines 704–707). -/
def checkinEventRow (sid : String) (d t : ℕ) (conf : ℚ) : CheckinRow :=
  ⟨sid, d, t, checkinStatus t, checkinLateMinutes t, conf⟩

/-- Shallow embedding of `DatabaseManager.record_staff_attendance`
(`database_manager.py` lines 648–747), for a call executing at date `d`
and time-of-day `t`.

* `check_in`: an existence query on `(staff_id, date)` decides between an
  `UPDATE` setting only `check_in_time` and `recognition_confidence`, and an
  `INSERT` carrying the computed status; one `staff_checkins` event row is
  always appended.
* `check_out`: an `UPDATE` sets `check_out_time` and recomputes
  `hours_worked` from the row's own `check_in_time` (0 when absent); if no
  row matched (`cursor.rowcount == 0`) a minimal `'Present'` row with only
  the check-out time is inserted.
* any other `attendance_type` falls through both branches and only runs the
  `total_visits` query. -/
def record_staff_attendance (db : DB) (sid ty : String) (conf : ℚ) (d t : ℕ) :
    DB × AttendResult :=
  if ty = "check_in" then
    let already := db.staff_attendance.any (attKeyMatch sid d)
    let att1 :=
      if already then db.staff_attendance.map (updCheckin sid d t conf)
      else db.staff_attendance ++ [freshCheckinRow sid d t conf]
    let chk1 := db.staff_checkins ++ [checkinEventRow sid d t conf]
    (⟨att1, chk1⟩, ⟨true, already, visitCount att1 sid⟩)
  else if ty = "check_out" then
    let matched := db.staff_attendance.any (attKeyMatch sid d)
    let att1 :=
      if matched then db.staff_attendance.map (updCheckout sid d t)
      else db.staff_attendance ++ [minimalCheckoutRow sid d t conf]
    (⟨att1, db.staff_checkins⟩, ⟨true, false, visitCount att1 sid⟩)
  else
    (db, ⟨true, false, visitCount db.staff_attendance sid⟩)

lemma record_checkin_eq (db : DB) (sid : String) (conf : ℚ) (d t : ℕ) :
    record_staff_attendance db sid "check_in" conf d t =
      (⟨if db.staff_attendance.any (attKeyMatch sid d) then
          db.staff_attendance.map (updCheckin sid d t conf)
        else db.staff_attendance ++ [freshCheckinRow sid d t conf],
        db.staff_checkins ++ [checkinEventRow sid d t conf]⟩,
       ⟨true, db.staff_attendance.any (attKeyMatch sid d),
        visitCount (if db.staff_attendance.any (attKeyMatch sid d) then
          db.staff_attendance.map (updCheckin sid d t conf)
        else db.staff_attendance ++ [freshCheckinRow sid d t conf]) sid⟩) := rfl

lemma record_checkout_eq (db : DB) (sid : String) (conf : ℚ) (d t : ℕ) :
    record_staff_attendance db sid "check_out" conf d t =
      (⟨if db.staff_attendance.any (attKeyMatch sid d) then
          db.staff_attendance.map (updCheckout sid d t)
        else db.staff_attendance ++ [minimalCheckoutRow sid d t conf],
        db.staff_checkins⟩,
       ⟨true, false,
        visitCount (if db.staff_attendance.any (attKeyMatch sid d) then
          db.staff_attendance.map (updCheckout sid d t)
        else db.staff_attendance ++ [minimalCheckoutRow sid d t conf]) sid⟩) := rfl

lemma record_other_eq (db : DB) (sid ty : String) (conf : ℚ) (d t : ℕ)
    (h1 : ty ≠ "check_in") (h2 : ty ≠ "check_out") :
    record_staff_attendance db sid ty conf d t =
      (db, ⟨true, false, visitCount db.staff_attendance sid⟩) := by
  unfold record_staff_attendance
  rw [if_neg h1, if_neg h2]

/-- One call to `record_staff_attendance`: which staff id, which
`attendance_type`, the confidence, and the wall-clock date / time of day at
which the call runs. -/
structure AttOp where
  sid : String
  ty : String
  conf : ℚ
  d : ℕ
  t : ℕ
deriving DecidableEq

/-- Apply one call, discarding the returned result dictionary. -/
def applyOp (db : DB) (op : AttOp) : DB :=
  (record_staff_attendance db op.sid op.ty op.conf op.d op.t).1

/-- Run a whole sequence of calls against the freshly initialised database. -/
def applyOps (ops : List AttOp) : DB :=
  ops.foldl applyOp emptyDB

/-- Number of `staff_attendance` rows for a given `(staff_id, date)` key. -/
def keyCount (rows : List AttRow) (sid : String) (d : ℕ) : ℕ :=
  rows.countP (attKeyMatch sid d)

lemma attKeyMatch_updCheckin (sid : String) (d : ℕ) (sid' : String)
    (d' t : ℕ) (conf : ℚ) (r : AttRow) :
    attKeyMatch sid d (updCheckin sid' d' t conf r) = attKeyMatch sid d r := by
  unfold updCheckin
  by_cases h : attKeyMatch sid' d' r = true
  · simp only [h, if_true]
    simp [attKeyMatch]
  · simp [h]

lemma attKeyMatch_updCheckout (sid : String) (d : ℕ) (sid' : String)
    (d' t : ℕ) (r : AttRow) :
    attKeyMatch sid d (updCheckout sid' d' t r) = attKeyMatch sid d r := by
  unfold updCheckout
  by_cases h : attKeyMatch sid' d' r = true
  · simp only [h, if_true]
    simp [attKeyMatch]
  · simp [h]

lemma keyCount_map_of_preserve (rows : List AttRow) (f : AttRow → AttRow)
    (sid : String) (d : ℕ)
    (hf : ∀ r, attKeyMatch sid d (f r) = attKeyMatch sid d r) :
    keyCount (rows.map f) sid d = keyCount rows sid d := by
  induction rows with
  | nil => rfl
  | cons r rs ih => simp [keyCount, List.countP_cons, hf] at ih ⊢; omega

lemma keyCount_append (rows rows' : List AttRow) (sid : String) (d : ℕ) :
    keyCount (rows ++ rows') sid d = keyCount rows sid d + keyCount rows' sid d :=
  List.countP_append _ _ _

lemma keyCount_eq_zero_of_not_any (rows : List AttRow) (sid : String) (d : ℕ)
    (h : rows.any (attKeyMatch sid d) = false) :
    keyCount rows sid d = 0 := by
  have h' : ∀ a ∈ rows, ¬ attKeyMatch sid d a = true := by
    intro a ha hpa
    have hany := List.any_eq_true.mpr ⟨a, ha, hpa⟩
    rw [h] at hany
    exact Bool.false_ne_true hany
  rw [keyCount]
  exact List.countP_eq_zero.mpr h'

lemma keyCount_append_new (rows : List AttRow) (row : AttRow) (sid : String)
    (d : ℕ) (h : keyCount rows sid d ≤ 1)
    (hex : rows.any (attKeyMatch row.staff_id row.date) = false) :
    keyCount (rows ++ [row]) sid d ≤ 1 := by
  rw [keyCount_append]
  by_cases hkey : attKeyMatch sid d row = true
  · have hsd : row.staff_id = sid ∧ row.date = d := by
      simpa [attKeyMatch] using hkey
    have h0 : keyCount rows sid d = 0 := by
      apply keyCount_eq_zero_of_not_any
      rw [hsd.1, hsd.2] at hex; exact hex
    have h1 : keyCount [row] sid d = 1 := by
      simp [keyCount, List.countP_cons, hkey]
    omega
  · rw [Bool.not_eq_true] at hkey
    have h1 : keyCount [row] sid d = 0 := by
      simp [keyCount, List.countP_cons, hkey]
    omega

/-- One `record_staff_attendance` call never takes a `(staff_id, date)` key
from at most one row to more than one row. -/
lemma keyCount_applyOp_le (db : DB) (op : AttOp) (sid : String) (d : ℕ)
    (h : keyCount db.staff_attendance sid d ≤ 1) :
    keyCount (applyOp db op).staff_attendance sid d ≤ 1 := by
  unfold applyOp
  by_cases hin : op.ty = "check_in"
  · rw [hin, record_checkin_eq]
    by_cases hex : db.staff_attendance.any (attKeyMatch op.sid op.d) = true
    · simp only [hex, if_true]
      rw [keyCount_map_of_preserve _ _ sid d
        (fun r => attKeyMatch_updCheckin sid d op.sid op.d op.t op.conf r)]
      exact h
    · rw [Bool.not_eq_true] at hex
      simp only [hex, Bool.false_eq_true, if_false]
      exact keyCount_append_new _ _ sid d h hex
  · by_cases hout : op.ty = "check_out"
    · rw [hout, record_checkout_eq]
      by_cases hex : db.staff_attendance.any (attKeyMatch op.sid op.d) = true
      · simp only [hex, if_true]
        rw [keyCount_map_of_preserve _ _ sid d
          (fun r => attKeyMatch_updCheckout sid d op.sid op.d op.t r)]
        exact h
      · rw [Bool.not_eq_true] at hex
        simp only [hex, Bool.false_eq_true, if_false]
        exact keyCount_append_new _ _ sid d h hex
    · rw [record_other_eq db op.sid op.ty op.conf op.d op.t hin hout]
      exact h

lemma keyCount_foldl_le (ops : List AttOp) (db : DB) (sid : String) (d : ℕ)
    (h : keyCount db.staff_attendance sid d ≤ 1) :
    keyCount (ops.foldl applyOp db).staff_attendance sid d ≤ 1 := by
  induction ops generalizing db with
  | nil => exact h
  | cons op ops ih => exact ih _ (keyCount_applyOp_le db op sid d h)

/-- The lateness status computed and displayed by the dashboard's
`record_checkin` (`attendance_dashboard.py` lines 1266–1276):
`is_late = check_time.time() > expected_time`, and when late the minute
count is `(hour * 60 + minute) - (9 * 60 + 0)`, i.e. `t / 60 - 540`. -/
def record_checkin_status (t : ℕ) : String :=
  if expectedSecs < t then toString (t / 60 - 540) ++ " min Late" else "On Time"

/-- The minute count of the dashboard's `record_checkin` status. -/
def record_checkin_late_minutes (t : ℕ) : ℕ :=
  if expectedSecs < t then t / 60 - 540 else 0

/-- C1: for every staff id and date, after any sequence of
`record_staff_attendance` calls (check-in, check-out, or anything else)
starting from the freshly initialised database, the `staff_attendance`
table holds at most one row for that `(staff_id, date)` key: a check-in
inserts only when no row exists and otherwise updates, and a check-out
updates the existing row or inserts only when none exists. -/
theorem attendance_day_unique (ops : List AttOp) (sid : String) (d : ℕ) :
    keyCount (applyOps ops).staff_attendance sid d ≤ 1 :=
  keyCount_foldl_le ops emptyDB sid d (by simp [emptyDB, keyCount])

/-- C2: every check-in processed by `record_staff_attendance` at
time-of-day `t` persists a `staff_checkins` event whose status is `"Late"`
with late-minutes equal to the whole minutes elapsed past 09:00 exactly
when `09:00 < t ≤ 09:20`, and for every other `t` (at or before 09:00, or
after 09:20) status `"Present"` with late-minutes 0; a fresh
`staff_attendance` row inserted by the check-in carries the same status. -/
theorem checkin_event_lateness (db : DB) (sid : String) (conf : ℚ) (d t : ℕ) :
    ((record_staff_attendance db sid "check_in" conf d t).1.staff_checkins.getLast?
      = some (checkinEventRow sid d t conf)) ∧
    ((checkinStatus t = "Late" ∧ checkinLateMinutes t = (t - expectedSecs) / 60) ↔
      (expectedSecs < t ∧ t ≤ lateWindowEndSecs)) ∧
    (¬(expectedSecs < t ∧ t ≤ lateWindowEndSecs) →
      checkinStatus t = "Present" ∧ checkinLateMinutes t = 0) ∧
    (db.staff_attendance.any (attKeyMatch sid d) = false →
      (record_staff_attendance db sid "check_in" conf d t).1.staff_attendance.getLast?
        = some (freshCheckinRow sid d t conf)) := by
  refine ⟨?_, ?_, ?_, ?_⟩
  · rw [record_checkin_eq]
    show (db.staff_checkins ++ [checkinEventRow sid d t conf]).getLast? = _
    rw [List.getLast?_concat]
  · by_cases hw : expectedSecs < t ∧ t ≤ lateWindowEndSecs
    · simp [checkinStatus, checkinLateMinutes, hw]
    · simp [checkinStatus, checkinLateMinutes, hw]
  · intro hw
    simp [checkinStatus, checkinLateMinutes, hw]
  · intro hex
    rw [record_checkin_eq]
    show ((if db.staff_attendance.any (attKeyMatch sid d) then _ else _ :
      List AttRow)).getLast? = _
    rw [hex]
    show (db.staff_attendance ++ [freshCheckinRow sid d t conf]).getLast? = _
    rw [List.getLast?_concat]

/-- Witness for C2: a check-in at 09:10 (33000 s) is persisted as `"Late"`
with 10 late minutes. -/
theorem checkin_event_lateness_witness :
    checkinStatus 33000 = "Late" ∧ checkinLateMinutes 33000 = 10 := by
  have h := (checkin_event_lateness emptyDB "S1" 1 0 33000).2.1.mpr (by decide)
  exact ⟨h.1, h.2.trans (by decide)⟩

/-- Counterexample to C6 as stated: a second check-in at 10:00 on a day
whose row was inserted by a 09:10 check-in updates `check_in_time` but
leaves `status` at `"Late"`, although the lateness rule at 10:00 yields
`"Present"` — so the check-in update does not overwrite `status`. -/
theorem checkin_overwrite_status_cex :
    (applyOps [⟨"S1", "check_in", 1, 0, 33000⟩,
               ⟨"S1", "check_in", 1, 0, 36000⟩]).staff_attendance.map
        (fun r => (r.check_in_time, r.status)) = [(some 36000, "Late")] ∧
    checkinStatus 36000 = "Present" ∧ ("Late" : String) ≠ "Present" := by
  decide

/-- C6 (amended): when `record_staff_attendance` processes a check-in for a
key with an existing `staff_attendance` row, it overwrites that row's
check-in time and recognition confidence while leaving its status (and
check-out time and hours) unchanged; and every check-in, whether the row
was inserted or updated, appends exactly one row to the `staff_checkins`
event log. -/
theorem checkin_update_and_event (db : DB) (sid : String) (conf : ℚ) (d t : ℕ) :
    ((record_staff_attendance db sid "check_in" conf d t).1.staff_checkins =
      db.staff_checkins ++ [checkinEventRow sid d t conf]) ∧
    (∀ r ∈ db.staff_attendance, attKeyMatch sid d r = true →
      { r with check_in_time := some t, recognition_confidence := conf } ∈
        (record_staff_attendance db sid "check_in" conf d t).1.staff_attendance) := by
  constructor
  · rw [record_checkin_eq]
  · intro r hr hkey
    have halready : db.staff_attendance.any (attKeyMatch sid d) = true :=
      List.any_eq_true.mpr ⟨r, hr, hkey⟩
    rw [record_checkin_eq]
    show _ ∈ (if db.staff_attendance.any (attKeyMatch sid d) then _ else _ :
      List AttRow)
    rw [halready]
    show _ ∈ db.staff_attendance.map (updCheckin sid d t conf)
    have hupd : updCheckin sid d t conf r =
        { r with check_in_time := some t, recognition_confidence := conf } := by
      unfold updCheckin
      rw [if_pos hkey]
    exact hupd ▸ List.mem_map_of_mem (updCheckin sid d t conf) hr

/-- Witness for C6 (amended): updating the 09:10 row by a 10:00 re-check-in
keeps its `"Late"` status while the check-in time moves to 10:00. -/
theorem checkin_update_and_event_witness :
    (⟨"S1", 0, some 36000, none, 0, "Late", 1⟩ : AttRow) ∈
      (record_staff_attendance ⟨[⟨"S1", 0, some 33000, none, 0, "Late", 1⟩], []⟩
        "S1" "check_in" 1 0 36000).1.staff_attendance :=
  (checkin_update_and_event ⟨[⟨"S1", 0, some 33000, none, 0, "Late", 1⟩], []⟩
      "S1" 1 0 36000).2
    ⟨"S1", 0, some 33000, none, 0, "Late", 1⟩ (by decide) (by decide)

/-- Counterexample to C7 as stated: check out at 10:00 before any check-in
(inserting a minimal row), then check in at 11:00 (updating only the
check-in time).  The reachable row has both times set but `hours_worked`
is the stale default 0, while the wall-clock difference is −1 hour — the
claimed invariant fails on this reachable state. -/
theorem hours_worked_cex :
    (applyOps [⟨"S1", "check_out", 1, 0, 36000⟩,
               ⟨"S1", "check_in", 1, 0, 39600⟩]).staff_attendance.map
        (fun r => (r.check_in_time, r.check_out_time, r.hours_worked)) =
      [(some 39600, some 36000, 0)] ∧
    hoursBetween 39600 36000 = -1 ∧ (0 : ℚ) ≠ -1 := by
  refine ⟨by decide, ?_, by norm_num⟩
  norm_num [hoursBetween]

/-- C7 (amended): `hours_worked` is recomputed only by check-out: when a
check-out at time `t` updates a row whose `check_in_time` is already set to
`tin`, the row's `hours_worked` becomes the wall-clock difference
`(t − tin)/3600` in hours, which is non-negative whenever `tin ≤ t`.  A
later check-in does not recompute `hours_worked`, so a row whose check-out
preceded its check-in can keep the stale value 0 with both times set. -/
theorem hours_worked_on_checkout (db : DB) (sid : String) (conf : ℚ)
    (d t tin : ℕ) (r : AttRow) (hr : r ∈ db.staff_attendance)
    (hkey : attKeyMatch sid d r = true) (hin : r.check_in_time = some tin) :
    ({ r with check_out_time := some t, hours_worked := hoursBetween tin t } ∈
      (record_staff_attendance db sid "check_out" conf d t).1.staff_attendance) ∧
    (tin ≤ t → 0 ≤ hoursBetween tin t) := by
  constructor
  · have hm : db.staff_attendance.any (attKeyMatch sid d) = true :=
      List.any_eq_true.mpr ⟨r, hr, hkey⟩
    rw [record_checkout_eq]
    show _ ∈ (if db.staff_attendance.any (attKeyMatch sid d) then _ else _ :
      List AttRow)
    rw [hm]
    show _ ∈ db.staff_attendance.map (updCheckout sid d t)
    have hupd : updCheckout sid d t r =
        { r with check_out_time := some t, hours_worked := hoursBetween tin t } := by
      unfold updCheckout
      rw [if_pos hkey, hin]
    exact hupd ▸ List.mem_map_of_mem (updCheckout sid d t) hr
  · intro hle
    unfold hoursBetween
    have : (tin : ℚ) ≤ (t : ℚ) := by exact_mod_cast hle
    have hnum : (0 : ℚ) ≤ (t : ℚ) - (tin : ℚ) := by linarith
    positivity

/-- Witness for C7 (amended): checking out at 17:00 a row checked in at
09:00 records 8 worked hours. -/
theorem hours_worked_on_checkout_witness :
    (⟨"S1", 0, some 32400, some 61200, 8, "Present", 1⟩ : AttRow) ∈
      (record_staff_attendance ⟨[⟨"S1", 0, some 32400, none, 0, "Present", 1⟩], []⟩
        "S1" "check_out" 1 0 61200).1.staff_attendance := by
  have h := (hours_worked_on_checkout
    ⟨[⟨"S1", 0, some 32400, none, 0, "Present", 1⟩], []⟩ "S1" 1 0 61200 32400
    ⟨"S1", 0, some 32400, none, 0, "Present", 1⟩ (by decide) (by decide) rfl).1
  have heq : hoursBetween 32400 61200 = 8 := by norm_num [hoursBetween]
  rw [heq] at h
  exact h

/-- C9: a check-in at 08:58 (32280 s) is shown by the dashboard's
`record_checkin` with status `"On Time"` and 0 late minutes, and the
persisted `staff_checkins` event carries 0 late minutes. -/
theorem scenario_checkin_0858 :
    record_checkin_status 32280 = "On Time" ∧
    record_checkin_late_minutes 32280 = 0 ∧
    checkinLateMinutes 32280 = 0 ∧
    (record_staff_attendance emptyDB "S1" "check_in" 1 0 32280).1.staff_checkins.map
        CheckinRow.late_minutes = [0] := by
  decide

/-- C10: calling `record_staff_attendance` with an `attendance_type` that
is neither `'check_in'` nor `'check_out'` leaves both tables untouched and
still returns `success = True` with `already_checked_in = False`. -/
theorem record_other_type_noop (db : DB) (sid ty : String) (conf : ℚ) (d t : ℕ)
    (h1 : ty ≠ "check_in") (h2 : ty ≠ "check_out") :
    (record_staff_attendance db sid ty conf d t).1 = db ∧
    (record_staff_attendance db sid ty conf d t).2.success = true ∧
    (record_staff_attendance db sid ty conf d t).2.already_checked_in = false := by
  rw [record_other_eq db sid ty conf d t h1 h2]
  exact ⟨rfl, rfl, rfl⟩

/-- Witness for C10: an `attendance_type` of `"break"` changes nothing and
reports success without `already_checked_in`. -/
theorem record_other_type_noop_witness :
    (record_staff_attendance emptyDB "S1" "break" 1 0 33000).1 = emptyDB ∧
    (record_staff_attendance emptyDB "S1" "break" 1 0 33000).2.success = true ∧
    (record_staff_attendance emptyDB "S1" "break" 1 0 33000).2.already_checked_in
      = false :=
  record_other_type_noop emptyDB "S1" "break" 1 0 33000 (by decide) (by decide)

/-! ### Debounce of `web_app.process_attendance` (C3) -/

/-- The per-staff debounce of `web_app.process_attendance`
(`web_app.py` lines 644–652): `last_processed.get(staff_id, 0)` starts at 0,
a call less than 30 s after the last accepted call returns without
recording, and an accepted call records and becomes the new reference
point.  The boolean is whether the call was accepted (a check-in or
check-out was recorded). -/
def debounceStep (last t : ℚ) : ℚ × Bool :=
  if t - last < 30 then (last, false) else (t, true)

/-- Run a sequence of `process_attendance` calls for one staff id, counting
how many record a check-in/check-out. -/
def debounceRun (last : ℚ) : List ℚ → ℚ × ℕ
  | [] => (last, 0)
  | t :: ts =>
    let s := debounceStep last t
    let rest := debounceRun s.1 ts
    (rest.1, (if s.2 then 1 else 0) + rest.2)

lemma debounceRun_all_rejected (l : ℚ) (ts : List ℚ)
    (h : ∀ t ∈ ts, t - l < 30) : debounceRun l ts = (l, 0) := by
  induction ts with
  | nil => rfl
  | cons t ts ih =>
    have h1 : t - l < 30 := h t (List.mem_cons_self t ts)
    have h2 := ih (fun x hx => h x (List.mem_cons_of_mem t hx))
    simp [debounceRun, debounceStep, h1, h2]

/-- C3: a `process_attendance` call arriving within 30 s of the last
accepted call for the same staff id is ignored, so a first detection at
`t1` (at least 30 s after the epoch default 0) followed by any further
detections all within the 30 s debounce window of `t1` records exactly one
check-in (or check-out). -/
theorem process_attendance_debounce (t1 : ℚ) (ts : List ℚ) (h0 : 30 ≤ t1)
    (hw : ∀ t ∈ ts, t - t1 < 30) :
    (∀ l t : ℚ, t - l < 30 → debounceStep l t = (l, false)) ∧
    (debounceRun 0 (t1 :: ts)).2 = 1 := by
  constructor
  · intro l t h
    simp [debounceStep, h]
  · have hacc : debounceStep 0 t1 = (t1, true) := by
      unfold debounceStep
      rw [if_neg]
      rw [sub_zero]
      exact not_lt.mpr h0
    simp [debounceRun, hacc, debounceRun_all_rejected t1 ts hw]

/-- Witness for C3: three detections at 100 s, 110 s, 120 s yield exactly
one recorded event. -/
theorem process_attendance_debounce_witness :
    (debounceRun 0 [100, 110, 120]).2 = 1 :=
  (process_attendance_debounce 100 [110, 120] (by norm_num)
    (by intro t ht; fin_cases ht <;> norm_num)).2

/-! ### Embedding-similarity dedup cache of `web_app.is_same_unknown` (C5) -/

/-- Dot product of two embeddings, zip-truncated like `np.dot` on
equal-length vectors. -/
def dotProd (a b : List ℚ) : ℚ := (List.zipWith (· * ·) a b).sum

/-- Squared Euclidean norm of an embedding (`np.linalg.norm` squared). -/
def normSq (a : List ℚ) : ℚ := dotProd a a

/-- Decides `_cosine_similarity(a, b) >= 0.7` (`web_app.py` lines 136–147)
over exact rationals.  `_cosine_similarity` returns
`dot(a, b) / (‖a‖ * ‖b‖)`, and 0.0 when either norm is 0; for the positive
threshold 0.7 the comparison is equivalent to `dot ≥ 0` together with
`100 * dot² ≥ 49 * ‖a‖² * ‖b‖²`, which avoids irrational square roots. -/
def simGe07 (a b : List ℚ) : Bool :=
  if normSq a = 0 ∨ normSq b = 0 then false
  else decide (0 ≤ dotProd a b ∧
    49 * (normSq a * normSq b) ≤ 100 * (dotProd a b) ^ 2)

/-- The lazy eviction at the top of `is_same_unknown`
(`web_app.py` lines 164–168): keep entries whose age is at most
`max_age_seconds = 300`. -/
def evictRecent (cache : List (List ℚ × ℚ)) (now : ℚ) : List (List ℚ × ℚ) :=
  cache.filter (fun item => now - item.2 ≤ 300)

/-- Shallow embedding of `web_app.is_same_unknown`
(`web_app.py` lines 150–182) on the global `recent_unknowns` cache of
(embedding, timestamp) pairs.  Returns the boolean result (`True` means
duplicate, so the caller in `process_video_loop` suppresses the unknown
entry) and the cache contents after the call. -/
def is_same_unknown (cache : List (List ℚ × ℚ)) (e : List ℚ) (now : ℚ) :
    Bool × List (List ℚ × ℚ) :=
  let recent := evictRecent cache now
  if recent.isEmpty then (false, recent ++ [(e, now)])
  else if recent.any (fun item => simGe07 e item.1) then (true, recent)
  else (false, recent ++ [(e, now)])

/-- C5: checking an unknown embedding against the rolling 5-minute cache
evicts entries older than the window, then: if some surviving cached
embedding has cosine similarity ≥ 0.7 with it, the write is suppressed and
the embedding is not added to the cache; otherwise the write proceeds and
the embedding is cached with the current timestamp. -/
theorem is_same_unknown_dedup (cache : List (List ℚ × ℚ)) (e : List ℚ)
    (now : ℚ) :
    (∀ item ∈ (is_same_unknown cache e now).2, now - item.2 ≤ 300) ∧
    ((evictRecent cache now).any (fun item => simGe07 e item.1) = true →
      is_same_unknown cache e now = (true, evictRecent cache now)) ∧
    ((evictRecent cache now).any (fun item => simGe07 e item.1) = false →
      is_same_unknown cache e now = (false, evictRecent cache now ++ [(e, now)])) := by
  refine ⟨?_, ?_, ?_⟩
  · intro item hitem
    unfold is_same_unknown at hitem
    dsimp only at hitem
    have hrec : ∀ x ∈ evictRecent cache now, now - x.2 ≤ 300 := by
      intro x hx
      have := List.of_mem_filter hx
      exact of_decide_eq_true this
    by_cases he : (evictRecent cache now).isEmpty = true
    · rw [if_pos he] at hitem
      rcases List.mem_append.mp hitem with hl | hr
      · exact hrec item hl
      · rcases List.mem_singleton.mp hr with rfl
        norm_num
    · rw [if_neg he] at hitem
      by_cases hany : (evictRecent cache now).any (fun item => simGe07 e item.1) = true
      · rw [if_pos hany] at hitem
        exact hrec item hitem
      · rw [if_neg hany] at hitem
        rcases List.mem_append.mp hitem with hl | hr
        · exact hrec item hl
        · rcases List.mem_singleton.mp hr with rfl
          norm_num
  · intro hany
    have hne : (evictRecent cache now).isEmpty = false := by
      by_contra hcon
      rw [Bool.not_eq_false, List.isEmpty_iff] at hcon
      rw [hcon] at hany
      simp at hany
    unfold is_same_unknown
    rw [if_neg (by simp [hne]), if_pos hany]
  · intro hany
    unfold is_same_unknown
    by_cases he : (evictRecent cache now).isEmpty = true
    · rw [if_pos he]
    · rw [if_neg he, if_neg (by simp [hany])]

/-- Witness for C5 (the spec's Scenario D): with embedding `(3, 4)` cached
at time 0, a sighting of embedding `(7, 24)` 60 s later has cosine
similarity `117/125 = 0.936 ≥ 0.7`, so no new entry is written and the
cache is unchanged. -/
theorem is_same_unknown_dedup_witness :
    is_same_unknown [([3, 4], 0)] [7, 24] 60 = (true, [([3, 4], 0)]) := by
  have hev : evictRecent [([3, 4], 0)] 60 = [([3, 4], 0)] := by
    norm_num [evictRecent, List.filter]
  have hsim : simGe07 [7, 24] [3, 4] = true := by
    norm_num [simGe07, normSq, dotProd, List.zipWith_cons_cons]
  have hany : ((evictRecent [([3, 4], 0)] 60).any
      fun item => simGe07 [7, 24] item.1) = true := by
    rw [hev]
    simp [hsim]
  have h := (is_same_unknown_dedup [([3, 4], 0)] [7, 24] 60).2.1 hany
  rw [hev] at h
  exact h

/-! ### Staff-track capture state machine of
`attendance_dashboard.process_video` (C4) -/

/-- The per-staff track record kept in `person_track_status`
(`attendance_dashboard.py` lines 640–647): in-frame flag, last-seen
timestamp, captured flag (bounding boxes are irrelevant to capture
decisions and omitted). -/
structure StaffTrack where
  in_frame : Bool
  last_seen : ℚ
  captured : Bool
deriving DecidableEq

/-- Detection-side handling of a confirmed staff sighting at time `t`
(`attendance_dashboard.py` lines 640–694).  A missing entry is created as
`{in_frame: False, last_seen: 0, captured: False}`.  If the track is not
in frame and was `captured`, the code resets `captured`, marks in-frame,
and calls `process_attendance`, which immediately re-sets `captured=True`
(line 913) — so the net state is captured with one capture emitted.  If it
is the first sighting, the track is only marked in-frame.  A track already
in frame merely refreshes `last_seen`.  The boolean is whether a capture
was emitted to the attendance recorder. -/
def detectStep (st : Option StaffTrack) (t : ℚ) : StaffTrack × Bool :=
  let s := st.getD ⟨false, 0, false⟩
  if s.in_frame = false then
    if s.captured then (⟨true, t, true⟩, true)
    else (⟨true, t, false⟩, false)
  else (⟨true, t, s.captured⟩, false)

/-- Leave detection at the end of each processing cycle
(`attendance_dashboard.py` lines 780–796): a staff id detected this cycle
has `last_seen` refreshed while in frame; one not detected for more than
`person_track_timeout = 2.0` s while in frame is marked left and
`captured` is set. -/
def cleanupStep (s : StaffTrack) (t : ℚ) (detected : Bool) : StaffTrack :=
  if detected then
    if s.in_frame then ⟨s.in_frame, t, s.captured⟩ else s
  else if s.in_frame ∧ 2 < t - s.last_seen then ⟨false, s.last_seen, true⟩
  else s

/-- One full `process_video` cycle at time `t` for one staff id, which is
either among the confirmed detections of the cycle or not. -/
def cycleStep (st : Option StaffTrack) (t : ℚ) (detected : Bool) :
    Option StaffTrack × Bool :=
  if detected then
    let r := detectStep st t
    (some (cleanupStep r.1 t true), r.2)
  else
    match st with
    | none => (none, false)
    | some s => (some (cleanupStep s t false), false)

/-- Run consecutive cycles in all of which the staff id is detected,
counting emitted captures. -/
def runDetectedCycles (st : Option StaffTrack) : List ℚ → Option StaffTrack × ℕ
  | [] => (st, 0)
  | t :: ts =>
    let r := cycleStep st t true
    let rest := runDetectedCycles r.1 ts
    (rest.1, (if r.2 then 1 else 0) + rest.2)

lemma cycleStep_in_frame (s : StaffTrack) (t : ℚ) (h : s.in_frame = true) :
    cycleStep (some s) t true = (some ⟨true, t, s.captured⟩, false) := by
  unfold cycleStep detectStep cleanupStep
  rw [if_pos rfl]
  simp [h]

lemma runDetectedCycles_in_frame (ts : List ℚ) (s : StaffTrack)
    (h : s.in_frame = true) : (runDetectedCycles (some s) ts).2 = 0 := by
  induction ts generalizing s with
  | nil => rfl
  | cons t ts ih =>
    unfold runDetectedCycles
    rw [cycleStep_in_frame s t h]
    simpa using ih ⟨true, t, s.captured⟩ rfl

/-- C4: for a confirmed staff track, (i) the first sighting creates an
in-frame, uncaptured track and emits no capture; (ii) while the track is
in frame, a detection cycle emits no capture and keeps it in frame;
(iii) once the track is in frame, a cycle without a detection more than
the 2 s leave timeout after `last_seen` marks it left and capture-ready
without emitting; and (iv) from the left state, any run of consecutive
detection cycles (the return and its continuous presence) emits exactly
one capture. -/
theorem staff_capture_cycle (s : StaffTrack) (t : ℚ) (ts : List ℚ)
    (hin : s.in_frame = false) (hcap : s.captured = true) :
    (∀ t' : ℚ, cycleStep none t' true = (some ⟨true, t', false⟩, false)) ∧
    (∀ (s' : StaffTrack) (t' : ℚ), s'.in_frame = true →
      cycleStep (some s') t' true = (some ⟨true, t', s'.captured⟩, false)) ∧
    (∀ (s' : StaffTrack) (t' : ℚ), s'.in_frame = true → 2 < t' - s'.last_seen →
      cycleStep (some s') t' false = (some ⟨false, s'.last_seen, true⟩, false)) ∧
    (runDetectedCycles (some s) (t :: ts)).2 = 1 := by
  refine ⟨?_, ?_, ?_, ?_⟩
  · intro t'
    unfold cycleStep detectStep cleanupStep
    rw [if_pos rfl]
    simp
  · intro s' t' h
    exact cycleStep_in_frame s' t' h
  · intro s' t' h hgone
    unfold cycleStep cleanupStep
    rw [if_neg Bool.false_ne_true]
    simp [h, hgone]
  · have hfirst : cycleStep (some s) t true = (some ⟨true, t, true⟩, true) := by
      unfold cycleStep detectStep cleanupStep
      rw [if_pos rfl]
      simp [hin, hcap]
    unfold runDetectedCycles
    rw [hfirst]
    simpa using runDetectedCycles_in_frame ts ⟨true, t, true⟩ rfl

/-- Witness for C4: a track that was in frame at time 0, missed for 3 s
(> 2 s timeout), then seen again at times 3.5 s and 4 s, is first marked
left and then yields exactly one capture over the two return cycles. -/
theorem staff_capture_cycle_witness :
    cycleStep (some ⟨true, 0, false⟩) 3 false = (some ⟨false, 0, true⟩, false) ∧
    (runDetectedCycles (some ⟨false, 0, true⟩) [7/2, 4]).2 = 1 := by
  constructor
  · exact (staff_capture_cycle ⟨false, 0, true⟩ (7/2) [4] rfl rfl).2.2.1
      ⟨true, 0, false⟩ 3 rfl (by norm_num)
  · exact (staff_capture_cycle ⟨false, 0, true⟩ (7/2) [4] rfl rfl).2.2.2

/-! ### Unknown-entry classification (C8) -/

/-- The classification of `web_app.process_unknown_entry`
(`web_app.py` lines 710–723): the entry type defaults to
`'unknown_person'`, `has_face = det_confidence > 0.3`, and the if/elif
chain tests `det_confidence < 0.3`, then `0 < rec_confidence < 0.5`, then
`not has_face`. -/
def entryTypeWeb (detConf recConf : ℚ) : String :=
  if detConf < 3/10 then "covered_face"
  else if recConf < 1/2 ∧ 0 < recConf then "unknown_person"
  else if ¬ (3/10 < detConf) then "no_face"
  else "unknown_person"

/-- The classification of `attendance_dashboard.process_unknown_entries`
(`attendance_dashboard.py` lines 1156–1186): entry type defaults to
`'unknown_person'`; a motion-based detection is classified purely by
`has_face`; otherwise `person_type == 'customer'` is checked first, then
`face_confidence < 0.3`, then `0 < rec_confidence < 0.5`, then
`rec_confidence == 0`, then `not has_face`. -/
def entryTypeDashboard (isMotion hasFace : Bool) (personType : String)
    (faceConf recConf : ℚ) : String :=
  if isMotion then
    if hasFace then "unknown_person" else "no_face"
  else if personType = "customer" then "customer"
  else if faceConf < 3/10 then "covered_face"
  else if recConf < 1/2 ∧ 0 < recConf then "unknown_person"
  else if recConf = 0 then "unknown_person"
  else if ¬ hasFace then "no_face"
  else "unknown_person"

/-- Counterexample to C8 as stated: the dashboard classifier, given a
face-based detection with `person_type = 'customer'` and face confidence
0.1, records entry type `'customer'` — not the `'covered_face'` demanded
by the claim's first rule (`fc < 0.3`), and outside the claimed closed set
`{no_face, unknown_person, covered_face}`. -/
theorem entry_type_customer_cex :
    entryTypeDashboard false true "customer" (1/10) (2/10) = "customer" ∧
    ("customer" : String) ≠ "covered_face" ∧
    ("customer" : String) ≠ "no_face" ∧
    ("customer" : String) ≠ "unknown_person" := by
  refine ⟨?_, by decide, by decide, by decide⟩
  norm_num [entryTypeDashboard]

/-- C8 (amended): `web_app.process_unknown_entry` classifies by first
match: `fc < 0.3` gives `covered_face`; else `0 < rc < 0.5` gives
`unknown_person`; else `fc ≤ 0.3` (no face detected) gives `no_face`; in
every remaining case (face present with `rc = 0` or `rc ≥ 0.5`) it gives
`unknown_person`, and it never records outside
`{no_face, unknown_person, covered_face}`.  The dashboard's
`process_unknown_entries` instead classifies motion detections purely by
face presence, records `'customer'` for customer detections before any
confidence test, and then follows the same rules with an explicit
`rc = 0` case — so `'customer'` is a fourth recordable entry type. -/
theorem entry_type_rules (fc rc : ℚ) (pt : String) (hf : Bool) :
    (fc < 3/10 → entryTypeWeb fc rc = "covered_face") ∧
    (3/10 ≤ fc → 0 < rc → rc < 1/2 → entryTypeWeb fc rc = "unknown_person") ∧
    ((rc = 0 ∨ 1/2 ≤ rc) → entryTypeWeb (3/10) rc = "no_face") ∧
    (3/10 < fc → (rc = 0 ∨ 1/2 ≤ rc) → entryTypeWeb fc rc = "unknown_person") ∧
    (entryTypeWeb fc rc = "covered_face" ∨
      entryTypeWeb fc rc = "unknown_person" ∨
      entryTypeWeb fc rc = "no_face") ∧
    (entryTypeDashboard true hf pt fc rc =
      if hf then "unknown_person" else "no_face") ∧
    (entryTypeDashboard false hf "customer" fc rc = "customer") ∧
    (pt ≠ "customer" → fc < 3/10 →
      entryTypeDashboard false hf pt fc rc = "covered_face") ∧
    (pt ≠ "customer" → 3/10 ≤ fc → 0 < rc → rc < 1/2 →
      entryTypeDashboard false hf pt fc rc = "unknown_person") ∧
    (pt ≠ "customer" → 3/10 ≤ fc → rc = 0 →
      entryTypeDashboard false hf pt fc rc = "unknown_person") ∧
    (pt ≠ "customer" → 3/10 ≤ fc → 1/2 ≤ rc → hf = false →
      entryTypeDashboard false hf pt fc rc = "no_face") := by
  refine ⟨?_, ?_, ?_, ?_, ?_, ?_, ?_, ?_, ?_, ?_, ?_⟩
  · intro h
    simp [entryTypeWeb, h]
  · intro h1 h2 h3
    rw [entryTypeWeb, if_neg (not_lt.mpr h1), if_pos ⟨h3, h2⟩]
  · intro h
    have h1 : ¬ ((3:ℚ)/10 < 3/10) := lt_irrefl _
    have h2 : ¬ (rc < 1/2 ∧ 0 < rc) := by
      rcases h with h | h
      · rw [h]
        rintro ⟨-, hc⟩
        exact lt_irrefl 0 hc
      · rintro ⟨hc, -⟩
        exact absurd (lt_of_le_of_lt h hc) (lt_irrefl _)
    rw [entryTypeWeb, if_neg (not_lt.mpr le_rfl), if_neg h2, if_pos (by simp)]
  · intro h1 h2
    have h2' : ¬ (rc < 1/2 ∧ 0 < rc) := by
      rcases h2 with h | h
      · rw [h]
        rintro ⟨-, hc⟩
        exact lt_irrefl 0 hc
      · rintro ⟨hc, -⟩
        exact absurd (lt_of_le_of_lt h hc) (lt_irrefl _)
    rw [entryTypeWeb, if_neg (not_lt.mpr (le_of_lt h1)), if_neg h2',
      if_neg (by simpa using h1)]
  · unfold entryTypeWeb
    split_ifs <;> simp
  · rw [entryTypeDashboard, if_pos rfl]
  · rw [entryTypeDashboard, if_neg Bool.false_ne_true, if_pos rfl]
  · intro hpt h
    rw [entryTypeDashboard, if_neg Bool.false_ne_true, if_neg hpt, if_pos h]
  · intro hpt h1 h2 h3
    rw [entryTypeDashboard, if_neg Bool.false_ne_true, if_neg hpt,
      if_neg (not_lt.mpr h1), if_pos ⟨h3, h2⟩]
  · intro hpt h1 h2
    have hno : ¬ (rc < 1/2 ∧ 0 < rc) := by
      rw [h2]
      rintro ⟨-, hc⟩
      exact lt_irrefl 0 hc
    rw [entryTypeDashboard, if_neg Bool.false_ne_true, if_neg hpt,
      if_neg (not_lt.mpr h1), if_neg hno, if_pos h2]
  · intro hpt h1 h2 h3
    have hno : ¬ (rc < 1/2 ∧ 0 < rc) := by
      rintro ⟨hc, -⟩
      exact absurd (lt_of_le_of_lt h2 hc) (lt_irrefl _)
    have hz : rc ≠ 0 := by
      intro hc
      rw [hc] at h2
      norm_num at h2
    rw [entryTypeDashboard, if_neg Bool.false_ne_true, if_neg hpt,
      if_neg (not_lt.mpr h1), if_neg hno, if_neg hz, if_pos (by simp [h3])]

/-- Witness for C8 (amended): a face-based detection with face confidence
0.2 is recorded as `covered_face` by the web classifier, and one with face
confidence 0.6 and recognition confidence 0.4 as `unknown_person`. -/
theorem entry_type_rules_witness :
    entryTypeWeb (2/10) (4/10) = "covered_face" ∧
    entryTypeWeb (6/10) (4/10) = "unknown_person" := by
  constructor
  · exact (entry_type_rules (2/10) (4/10) "unknown" true).1 (by norm_num)
  · exact (entry_type_rules (6/10) (4/10) "unknown" true).2.1
      (by norm_num) (by norm_num) (by norm_num)

end FactoryAttendance
